import Mathlib

/-!
Verification development for the searching-the-fox job-aggregation service.

Shallow embedding of the Python sources:
  * `main.py` — ingestion pipeline: per-site persistence, run-status
    accounting and final-status aggregation (namespace `MainSvc`);
  * `logo_fetcher.py` — logo resolution strategy chain and the bulk
    parallel fetch (namespace `LogoSvc`);
  * `email_service.py` — digest rendering, keyword filtering and the
    per-user dispatch short-circuits (namespace `EmailSvc`).

Strings are modelled as `List Char` (for the status strings of `main.py`)
or as lists of character codes `List Nat` (for the case/whitespace
arithmetic of the email and logo services).  Network and database
collaborators are passed in as explicit parameters, matching the spec's
"external collaborator" boundaries.
-/

namespace STF

/-- Character list of a Lean string literal (model of a Python `str`). -/
def chars (s : String) : List Char := s.toList

/-- Code-point list of a Lean string literal (model of a Python `str`
as a sequence of Unicode code points). -/
def codes (s : String) : List Nat := s.toList.map Char.toNat

/-- Python substring test `needle in hay` (contiguous occurrence;
the empty needle occurs in every string). -/
def containsSub {α : Type} [BEq α] : List α → List α → Bool
  | [], needle => needle.isEmpty
  | a :: t, needle => needle.isPrefixOf (a :: t) || containsSub t needle

/-- Model of `str.lower()` on a single code point, restricted to ASCII
(the code paths under verification only case-fold ASCII letters). -/
def lowerCode (n : Nat) : Nat := if 65 ≤ n ∧ n ≤ 90 then n + 32 else n

/-- Code-point-wise `str.lower()`. -/
def lowerCodes (l : List Nat) : List Nat := l.map lowerCode

/-- Whitespace code points stripped by Python `str.strip()`
(ASCII whitespace: TAB, LF, VT, FF, CR, SPACE). -/
def isSpaceCode (n : Nat) : Bool :=
  decide (n = 32 ∨ n = 9 ∨ n = 10 ∨ n = 11 ∨ n = 12 ∨ n = 13)

/-- Model of `str.strip()`: drop whitespace from both ends. -/
def stripCodes (l : List Nat) : List Nat :=
  ((l.dropWhile isSpaceCode).reverse.dropWhile isSpaceCode).reverse

/-- Decimal digit character for a value below ten (total; callers only
pass values below ten, produced by `% 10`). -/
def decDigit (d : Nat) : Char :=
  if d = 0 then '0' else if d = 1 then '1' else if d = 2 then '2' else if d = 3 then '3'
  else if d = 4 then '4' else if d = 5 then '5' else if d = 6 then '6' else if d = 7 then '7'
  else if d = 8 then '8' else '9'

/-- Fuelled decimal rendering helper. -/
def natCharsAux : Nat → Nat → List Char
  | 0, _ => []
  | fuel + 1, n => if n < 10 then [decDigit n] else natCharsAux fuel (n / 10) ++ [decDigit (n % 10)]

/-- Decimal rendering of a natural number, as used by Python f-strings
such as `f"completed: {saved_count} jobs"`. -/
def natChars (n : Nat) : List Char := natCharsAux (n + 1) n

namespace MainSvc

/-! ## main.py — database model and persistence

The storage collaborator is modelled as an explicit relational state:
a `jobs` table keyed by an id with a UNIQUE constraint on `job_url`,
and a `user_jobs` link table with a UNIQUE constraint on
`(user_id, job_id)`.  Only the columns the pipeline's control flow
inspects are carried. -/

/-- Relational state owned by the storage collaborator. -/
structure DB where
  /-- rows of the `jobs` table: `(id, job_url)`; `job_url` is UNIQUE. -/
  jobs : List (Nat × String)
  /-- rows of the `user_jobs` table: `(user_id, job_id)`, UNIQUE pairs. -/
  userJobs : List (String × Nat)
  /-- next fresh job id. -/
  nextId : Nat
deriving Repr, DecidableEq

/-- Model of `save_job_to_database(job_data, user_id)`.

The insert of the job row either succeeds (fresh `job_url`) or raises a
uniqueness violation, in which case the existing row is looked up and its
id reused.  The `user_jobs` insert is attempted afterwards; a duplicate
`(user, job)` pair is swallowed ("which is fine" in the source).  The
returned value is the obtained `job_id` — note that it is returned
whether or not the user link was newly created. -/
def save_job_to_database (db : DB) (jobUrl : String) (userId : String) :
    Option Nat × DB :=
  let found := db.jobs.find? (fun r => r.2 == jobUrl)
  let idAndDb : Option Nat × DB :=
    match found with
    | some r => (some r.1, db)
    | none =>
        (some db.nextId,
          { db with jobs := db.jobs ++ [(db.nextId, jobUrl)], nextId := db.nextId + 1 })
  match idAndDb with
  | (none, db1) => (none, db1)
  | (some jid, db1) =>
      if userId.isEmpty then (some jid, db1)
      else if db1.userJobs.contains (userId, jid) then (some jid, db1)
      else (some jid, { db1 with userJobs := db1.userJobs ++ [(userId, jid)] })

/-- Model of `save_jobs_to_database(jobs_list, user_id)`: saves each job in
order and counts the saves whose returned `job_id` is truthy. -/
def save_jobs_to_database (db : DB) (jobUrls : List String) (userId : String) :
    Nat × DB :=
  if userId.isEmpty then (0, db)
  else
    jobUrls.foldl
      (fun acc url =>
        let r := save_job_to_database acc.2 url userId
        ((if r.1.isSome then acc.1 + 1 else acc.1), r.2))
      (0, db)

/-! ## main.py — search-run record and status updates -/

/-- Stored `search_runs` row, with timestamps abstracted to presence flags. -/
structure RunRecord where
  status : String
  jobs_found : Option Nat
  error_message : Option String
  startedAt : Bool
  completedAt : Bool
deriving Repr, DecidableEq

/-- Stored `jobs_found` read through Python truthiness
(`if current.data and current.data[0]["jobs_found"]` — a NULL or 0 count
reads as 0). -/
def jobsFoundVal (run : RunRecord) : Nat :=
  match run.jobs_found with
  | some n => if n = 0 then 0 else n
  | none => 0

/-- Model of `update_search_run_status(run_id, status, error, jobs_found,
increment_only)` applied to the stored row.  In `increment_only` mode only
the cumulative `jobs_found` is touched; otherwise status, timestamps and
the optional error message are written.  A provided `jobs_found` is ADDED
to the current stored value, never assigned over it. -/
def update_search_run_status (run : RunRecord) (status : String)
    (error : Option String) (jobsFound : Option Nat) (incrementOnly : Bool) :
    RunRecord :=
  let run1 :=
    if incrementOnly then run
    else
      { run with
        status := status
        startedAt := if status = "running" then true else run.startedAt
        completedAt := if status = "success" ∨ status = "failed" then true else run.completedAt
        error_message := match error with | some e => some e | none => run.error_message }
  match jobsFound with
  | none => run1
  | some k => { run1 with jobs_found := some (jobsFoundVal run + k) }

/-! ## main.py — per-site statuses and final aggregation -/

/-- Terminal per-site outcomes recorded by the `scrape_jobs` loop. -/
inductive SiteOutcome where
  /-- `completed: {n} jobs` (also used for the 0-job scrape result). -/
  | completed (n : Nat)
  /-- `completed: 0 saved (duplicates)` — a save pass that saved nothing. -/
  | completedDup
  /-- `failed: {reason}` — the site's scrape or save raised. -/
  | failedSite (reason : List Char)
deriving Repr, DecidableEq

/-- Status string recorded for a terminal outcome (the exact f-strings of
`scrape_jobs`). -/
def outcomeStr : SiteOutcome → List Char
  | .completed n => chars "completed: " ++ natChars n ++ chars " jobs"
  | .completedDup => chars "completed: 0 saved (duplicates)"
  | .failedSite r => chars "failed: " ++ r

/-- Completed outcomes (either completed form counts). -/
def isCompletedOutcome : SiteOutcome → Bool
  | .completed _ => true
  | .completedDup => true
  | .failedSite _ => false

/-- Per-site status chosen by `scrape_jobs` after a save pass for a tracked
user: a positive saved count yields `completed: {saved_count} jobs`,
a zero saved count yields `completed: 0 saved (duplicates)`. -/
def siteStatusAfterSave (savedCount : Nat) : List Char :=
  if 0 < savedCount then outcomeStr (.completed savedCount)
  else outcomeStr .completedDup

/-- Result of `log_final_status`. -/
structure FinalStatus where
  overall : String
  dbStatus : String
  errorMessage : Option (List Char)
  finalized : Bool
deriving Repr, DecidableEq

/-- Model of `log_final_status(site_statuses, total_jobs, increment_only,
run_id)`.  A site counts as completed when its status string STARTS WITH
`completed`; a site counts as failed when its status string CONTAINS
`failed`.  The run finalizes as `success` when every site completed or at
least one did, and as `failed` otherwise, with the failure message joining
`{site}: {status}` for every failed site with `"; "`.  The database write
happens only when a run id is present and the call is not increment-only. -/
def log_final_status (siteStatuses : List (List Char × List Char))
    (incrementOnly : Bool) (runId : Option String) : FinalStatus :=
  let completedCount :=
    (siteStatuses.filter (fun p => (chars "completed").isPrefixOf p.2)).length
  let overall :=
    if completedCount = siteStatuses.length then "SUCCESS"
    else if 0 < completedCount then "PARTIAL SUCCESS"
    else "FAILED"
  let dbStatus :=
    if completedCount = siteStatuses.length then "success"
    else if 0 < completedCount then "success"
    else "failed"
  let errorMessage :=
    if dbStatus = "failed" then
      some (List.intercalate (chars "; ")
        ((siteStatuses.filter (fun p => containsSub p.2 (chars "failed"))).map
          (fun p => p.1 ++ chars ": " ++ p.2)))
    else none
  { overall := overall, dbStatus := dbStatus, errorMessage := errorMessage
    finalized := runId.isSome && !incrementOnly }

end MainSvc

namespace LogoSvc

/-! ## logo_fetcher.py — logo resolution

Strings are code-point lists (`List Nat`).  Outbound HTTP (the
professional-network page fetch and the `verify_logo_url` HEAD probe) is
passed in as explicit oracle parameters. -/

/-- Job dictionary handed to the logo fetcher
(the three keys built by `scrape_jobs` for `jobs_for_logo_fetch`). -/
structure LFJob where
  job_url : List Nat
  company : List Nat
  site : List Nat
deriving Repr, DecidableEq

/-- ASCII word characters of the regex class `\w` (letters, digits,
underscore). -/
def isWordCode (n : Nat) : Bool :=
  (48 ≤ n && n ≤ 57) || (65 ≤ n && n ≤ 90) || (97 ≤ n && n ≤ 122) || n == 95

/-- Company-name slug used by both logo services:
`re.sub(r"[^\w\s-]", "", company.lower())` followed by
`re.sub(r"\s+", "", ...strip())` — keep word characters, whitespace and
hyphens, then delete every whitespace character. -/
def cleanName (company : List Nat) : List Nat :=
  (((lowerCodes company).filter
      (fun c => isWordCode c || isSpaceCode c || c == 45)).filter
    (fun c => !isSpaceCode c))

/-- Model of `urlparse(url).netloc` for `scheme://host/...`-shaped URLs:
the text between the first `://` and the next `/` (empty when the URL has
no scheme separator). -/
def urlNetlocAux : List Nat → Option (List Nat)
  | [] => none
  | a :: t =>
      if (codes "://").isPrefixOf (a :: t) then some ((a :: t).drop 3)
      else urlNetlocAux t

/-- Network location of a URL (see `urlNetlocAux`). -/
def urlNetloc (u : List Nat) : List Nat :=
  match urlNetlocAux u with
  | some rest => rest.takeWhile (fun c => c != 47)
  | none => []

/-- Model of `LogoFetcher.get_clearbit_logo(company_name, job_url)`.
With a usable job URL whose host is not the professional-network board and
has at least two dot-separated parts, the host's registrable domain is
used; otherwise (including the LinkedIn branch, whose `common_domains`
list is built but never used) the slugified company name with a `.com`
guess.  Returns `none` only for an empty company name. -/
def get_clearbit_logo (company : List Nat) (jobUrl : Option (List Nat)) :
    Option (List Nat) :=
  if company.isEmpty then none
  else
    let clean := cleanName company
    let viaUrl : Option (List Nat) :=
      match jobUrl with
      | none => none
      | some u =>
          if u.isEmpty then none
          else
            let netloc := urlNetloc u
            if containsSub netloc (codes "linkedin.com") then none
            else
              let parts := netloc.splitOn 46
              if 2 ≤ parts.length then
                some (codes "https://logo.clearbit.com/" ++
                  List.intercalate [46] (parts.drop (parts.length - 2)))
              else none
    match viaUrl with
    | some r => some r
    | none => some (codes "https://logo.clearbit.com/" ++ clean ++ codes ".com")

/-- Model of `LogoFetcher.get_logo_dev_url(company_name)`: `none` for an
empty company name, otherwise the Logo.dev URL for the slugified name. -/
def get_logo_dev_url (company : List Nat) : Option (List Nat) :=
  if company.isEmpty then none
  else
    some (codes "https://img.logo.dev/" ++ cleanName company ++
      codes ".com?token=pk_X9vSaQ0wR3WxKzsHQUfhOQ")

/-- Model of `LogoFetcher.get_logo_for_job(job_data)`: the four-step
strategy chain.  `linkedinFetch` stands for
`get_linkedin_company_logo` (a network fetch plus regex scan) and
`verify` for the `verify_logo_url` HEAD probe. -/
def get_logo_for_job (linkedinFetch : List Nat → List Nat → Option (List Nat))
    (verify : List Nat → Bool) (job : LFJob) : Option (List Nat) :=
  let jobUrl := job.job_url
  let company := job.company
  let site := lowerCodes job.site
  if company.isEmpty then none
  else
    let step1 : Option (List Nat) :=
      if containsSub site (codes "linkedin") || containsSub jobUrl (codes "linkedin.com") then
        linkedinFetch jobUrl company
      else none
    match step1 with
    | some l => some l
    | none =>
        match get_clearbit_logo company (some jobUrl) with
        | some cb =>
            if verify cb then some cb
            else
              match get_logo_dev_url company with
              | some ld => some ld
              | none => some cb
        | none =>
            match get_logo_dev_url company with
            | some ld => some ld
            | none => none

/-- Model of `LogoFetcher.fetch_logos_for_jobs(jobs)`.

The source submits one future per list entry and stores each future's
result at `jobs.index(job)` — the index of the FIRST entry equal to that
job.  With a deterministic per-job resolution the outcome is independent
of completion order: a position that is the first occurrence of its value
receives that job's resolved logo (or, when the worker raised — modelled
by `crash` — the unverified Clearbit domain guess built from the company
name alone), while every later duplicate position keeps its initial
`None`. -/
def fetch_logos_for_jobs (linkedinFetch : List Nat → List Nat → Option (List Nat))
    (verify : List Nat → Bool) (crash : LFJob → Bool) (jobs : List LFJob) :
    List (Option (List Nat)) :=
  jobs.enum.map (fun p =>
    if List.indexOf p.2 jobs = p.1 then
      if crash p.2 then get_clearbit_logo p.2.company none
      else get_logo_for_job linkedinFetch verify p.2
    else none)

/-- Model of the module-level convenience wrapper `fetch_company_logos`. -/
def fetch_company_logos (linkedinFetch : List Nat → List Nat → Option (List Nat))
    (verify : List Nat → Bool) (crash : LFJob → Bool) (jobs : List LFJob) :
    List (Option (List Nat)) :=
  fetch_logos_for_jobs linkedinFetch verify crash jobs

end LogoSvc

namespace EmailSvc

/-! ## email_service.py — digest rendering and dispatch

Dates are modelled by their parse outcome: `fromisoformat` either rejects
the raw value (absent, falsy, a sentinel string, or malformed) or yields a
timestamp, which the renderer coerces to a UTC-midnight day number.
HTML output keeps the source's tag structure with the long inline style
attributes elided; no claim depends on the style text. -/

/-- Parse outcome of a raw date field. -/
inductive DateField where
  /-- key missing, value `None`/empty, or one of the sentinel strings
  `Not specified`, `null`, `undefined`, `None`, `""`. -/
  | absent
  /-- a truthy non-sentinel string rejected by `fromisoformat`. -/
  | unparseable
  /-- parses; `day` is its UTC day number after the coercion to UTC
  midnight (`.astimezone(utc).replace(hour=0, ...)`). -/
  | parsed (day : Int)
deriving Repr, DecidableEq

/-- Day number a raw date field parses to, if any. -/
def parseDate : DateField → Option Int
  | .parsed d => some d
  | _ => none

/-- State of the `salary_currency` dictionary entry.  The digest fetch
selects the column, so a NULL currency (the shape `main.py` inserts when
the scrape provides none) reaches the renderer as a PRESENT key holding
`None` — distinct from a missing key, for which `dict.get` falls back to
its `'$'` default. -/
inductive CurrencyField where
  /-- key absent from the dictionary. -/
  | missing
  /-- key present with value `None` (NULL in the database row). -/
  | null
  /-- key present with a string value. -/
  | currency (s : String)
deriving Repr, DecidableEq

/-- Text the f-string renders for `job.get('salary_currency', '$')`:
the `'$'` default for a missing key, the literal `None` for a present
NULL (Python `str(None)`), the stored string otherwise. -/
def currencyStr : CurrencyField → String
  | .missing => "$"
  | .null => "None"
  | .currency s => s

/-- Job row as fetched for the digest (the columns the renderer and
filter read).  `none` on an `Option` field models a missing or NULL
value read through `dict.get`; the currency keeps the three-way
missing/NULL/value distinction the renderer is sensitive to. -/
structure EJob where
  title : Option String := none
  company : Option String := none
  company_logo_url : Option String := none
  job_url : Option String := none
  location : Option String := none
  is_remote : Bool := false
  description : Option String := none
  salary_min : Option Int := none
  salary_max : Option Int := none
  salary_currency : CurrencyField := .null
  date_posted : DateField := .absent
  created_at : DateField := .absent
deriving Repr, DecidableEq

/-- Relative-date label for a day difference:
`0 → Today`, `1 → Yesterday`, otherwise `{diff} days ago`. -/
def dateLabel (diff : Int) : String :=
  if diff = 0 then "Today"
  else if diff = 1 then "Yesterday"
  else toString diff ++ " days ago"

/-- Model of the renderer's `format_posted_date(job)` helper: prefer
`date_posted`, fall back to `created_at`, and default to `Today` when
neither yields a date.  `today` is the current UTC day number. -/
def format_posted_date (datePosted createdAt : DateField) (today : Int) : String :=
  match parseDate datePosted with
  | some d => dateLabel (today - d)
  | none =>
      match parseDate createdAt with
      | some d => dateLabel (today - d)
      | none => "Today"

/-- Insert a comma after every third character of a reversed digit list
(helper for the `{:,}` format specifier). -/
def commifyRev : List Char → List Char
  | a :: b :: c :: d :: rest => a :: b :: c :: ',' :: commifyRev (d :: rest)
  | l => l

/-- Thousands-grouped decimal rendering of a natural number
(Python `f"{n:,}"`). -/
def groupNat (n : Nat) : String :=
  String.mk (commifyRev (Nat.repr n).toList.reverse).reverse

/-- Thousands-grouped rendering of an integer (`f"{int(x):,}"`). -/
def groupInt (i : Int) : String :=
  (if i < 0 then "-" else "") ++ groupNat i.natAbs

/-- Python truthiness of an optional numeric field
(`None` and `0` are falsy). -/
def truthyInt : Option Int → Bool
  | none => false
  | some v => !(v == 0)

/-- Python truthiness of an optional string field
(`None` and the empty string are falsy). -/
def truthyStr : Option String → Bool
  | none => false
  | some s => !s.isEmpty

/-- Model of the regex strip `re.sub("<[^>]*>", "", text)`: delete every
maximal `<...>` segment whose body has no `>`; a `<` never followed by
`>` is left in place (no further match can start beyond it). -/
def stripTags : List Char → List Char
  | [] => []
  | c :: rest =>
      if c = '<' then
        let seg := rest.takeWhile (fun x => x ≠ '>')
        if h : seg.length < rest.length then stripTags (rest.drop (seg.length + 1))
        else c :: rest
      else c :: stripTags rest
termination_by l => l.length
decreasing_by
  · simp only [List.length_cons, List.length_drop]
    omega
  · simp only [List.length_cons]
    omega

/-- Company avatar fragment: the logo image when `company_logo_url` is
truthy, else a placeholder with the company's first letter uppercased —
`job.get("company", "U")[0].upper()`, which raises `IndexError` on an
empty company string (modelled as `Except.error`). -/
def logo_html (j : EJob) : Except Unit String :=
  if truthyStr j.company_logo_url then
    .ok ("<img src=\"" ++ (j.company_logo_url.getD "") ++ "\" alt=\"" ++
      j.company.getD "Company" ++ " logo\" />")
  else
    match (j.company.getD "U").toList with
    | [] => .error ()
    | c :: _ => .ok ("<div>" ++ String.mk [c.toUpper] ++ "</div>")

/-- Location fragment, rendered only for a truthy location. -/
def location_html (j : EJob) : String :=
  if truthyStr j.location then "<p>" ++ j.location.getD "" ++ "</p>" else ""

/-- Posted-date badge (always rendered). -/
def posted_html (today : Int) (j : EJob) : String :=
  "<span>" ++ format_posted_date j.date_posted j.created_at today ++ "</span>"

/-- Remote badge, rendered only when the job is flagged remote. -/
def remote_html (j : EJob) : String :=
  if j.is_remote then "<span>Remote</span>" else ""

/-- Salary fragment: rendered only when BOTH `salary_min` and
`salary_max` are truthy (under Python truthiness a present `0` does not
count), formatted as thousands-grouped integers each prefixed with the
rendered currency value — `$` only when the key is absent, the literal
`None` when the stored currency is NULL (see `currencyStr`). -/
def salary_html (salaryMin salaryMax : Option Int) (salaryCurrency : CurrencyField) :
    String :=
  if truthyInt salaryMin && truthyInt salaryMax then
    let currency := currencyStr salaryCurrency
    "<span>" ++ currency ++ groupInt (salaryMin.getD 0) ++ " - " ++
      currency ++ groupInt (salaryMax.getD 0) ++ "</span>"
  else ""

/-- Description preview: markup-stripped, truncated to 197 characters
plus an ellipsis when longer than 200. -/
def description_html (j : EJob) : String :=
  if truthyStr j.description then
    let descText := stripTags (j.description.getD "").toList
    let descText :=
      if 200 < descText.length then descText.take 197 ++ chars "..." else descText
    "<p>" ++ String.mk descText ++ "</p>"
  else ""

/-- One job card of the digest (fails only through `logo_html`). -/
def job_card (today : Int) (j : EJob) : Except Unit String :=
  match logo_html j with
  | .error e => .error e
  | .ok logo =>
      .ok ("<div>" ++ logo ++ "<h3>" ++ j.company.getD "Unknown Company" ++ "</h3>" ++
        location_html j ++
        "<h2><a href=\"" ++ j.job_url.getD "#" ++ "\">" ++ j.title.getD "No Title" ++
        "</a></h2>" ++
        posted_html today j ++ remote_html j ++
        salary_html j.salary_min j.salary_max j.salary_currency ++
        description_html j ++ "</div>")

/-- Render the job cards in order, propagating the first failure
(the `for job in jobs` loop of `render_email_template`). -/
def render_cards (today : Int) : List EJob → Except Unit String
  | [] => .ok ""
  | j :: rest =>
      match job_card today j with
      | .error e => .error e
      | .ok card =>
          match render_cards today rest with
          | .error e => .error e
          | .ok tail => .ok (card ++ tail)

/-- Model of `render_email_template(jobs, user_email)`: the zero-job
placeholder or the concatenated cards, wrapped in the document shell whose
header states the count with singular/plural wording. -/
def render_email_template (today : Int) (jobs : List EJob) (_userEmail : String) :
    Except Unit String :=
  let jobsHtmlE : Except Unit String :=
    if jobs.length = 0 then .ok "<div><p>No new jobs found.</p></div>"
    else render_cards today jobs
  match jobsHtmlE with
  | .error e => .error e
  | .ok jobsHtml =>
      .ok ("<html><body><p>" ++ toString jobs.length ++ " new job" ++
        (if jobs.length ≠ 1 then "s" else "") ++ " available</p>" ++
        jobsHtml ++ "</body></html>")

/-- Structured result dictionary returned by the dispatch operations. -/
structure SendOutcome where
  success : Bool
  skipped : Bool := false
  reason : Option String := none
  message_id : Option String := none
  error : Option String := none
deriving Repr, DecidableEq

/-- Model of `send_job_email(to, jobs, user_name)`.  `apiKey` is the
`RESEND_API_KEY` environment value; `sendApi subject html` is the Resend
send collaborator.  The second component records whether the send
collaborator was invoked.  A missing key is a structured configuration
error; an exception inside the `try` (here: the renderer's `IndexError`)
is caught and returned as a failure result. -/
def send_job_email (apiKey : Option String)
    (sendApi : String → String → Except String String)
    (toAddr : String) (jobs : List EJob) (today : Int) : SendOutcome × Bool :=
  match apiKey with
  | none =>
      ({ success := false
         error := some "Email service is not configured. Please add RESEND_API_KEY to environment variables." },
       false)
  | some _ =>
      let subject :=
        if jobs.length = 0 then "No New Jobs This Time"
        else toString jobs.length ++ " New Job" ++
          (if jobs.length ≠ 1 then "s" else "") ++ " Matching Your Criteria"
      match render_email_template today jobs toAddr with
      | .error _ => ({ success := false, error := some "string index out of range" }, false)
      | .ok html =>
          match sendApi subject html with
          | .ok mid => ({ success := true, message_id := some mid }, true)
          | .error e => ({ success := false, error := some e }, true)

/-! ### Keyword filtering (`send_email_to_user`, step 4) -/

/-- One keyword against a lowered title:
`keyword_str = str(k).strip()`; an empty trimmed keyword never matches;
otherwise `keyword_str.lower() in job_title_lower`. -/
def keywordMatchOne (titleLower : List Nat) (k : String) : Bool :=
  let ks := stripCodes (codes k)
  !ks.isEmpty && containsSub titleLower (lowerCodes ks)

/-- Whether some keyword matches the title (the `for k in keywords`
loop with early break). -/
def titleMatches (keywords : List String) (title : String) : Bool :=
  keywords.any (fun k => keywordMatchOne (lowerCodes (codes title)) k)

/-- One iteration of the filtering loop of `send_email_to_user`: skip a
missing job row or a falsy title (`if not job or not job.get("title"):
continue`), keep the job when some keyword matches.  The attached
per-user metadata (`user_job_id`, `status`, ...) is not carried — no
claim reads it. -/
def jobRowKeep (keywords : List String) (oj : Option EJob) : Option EJob :=
  match oj with
  | none => none
  | some j =>
      match j.title with
      | none => none
      | some t =>
          if t.isEmpty then none
          else if titleMatches keywords t then some j else none

def filter_jobs_by_keywords (keywords : List String) (jobRows : List (Option EJob)) :
    List EJob :=
  jobRows.filterMap (jobRowKeep keywords)

/-- Sort key of `get_job_sort_key`: the parsed `date_posted`, else the
parsed `created_at`, else the epoch (the oldest possible date, day 0 of
the day scale). -/
def get_job_sort_key (j : EJob) : Int :=
  match parseDate j.date_posted with
  | some d => d
  | none =>
      match parseDate j.created_at with
      | some d => d
      | none => 0

/-- Model of `filtered_jobs.sort(key=get_job_sort_key, reverse=True)`:
a stable descending sort. -/
def sortJobsDesc (jobs : List EJob) : List EJob :=
  jobs.mergeSort (fun a b => decide (get_job_sort_key b ≤ get_job_sort_key a))

/-! ### Per-user dispatch (`send_email_to_user`, steps 1-5) -/

/-- Outcome of `json.loads` on a serialized keyword value. -/
inductive KwParse where
  /-- parsed to a JSON list (of values stringified to keywords). -/
  | plist (ks : List String)
  /-- parsed, but not to a list. -/
  | pother
  /-- raised (malformed JSON). -/
  | perr
deriving Repr, DecidableEq

/-- Raw `keywords` column value of a user row. -/
inductive RawKeywords where
  /-- a literal list of values (stringified to keywords). -/
  | rlist (ks : List String)
  /-- a string, together with its `json.loads` outcome. -/
  | rstr (s : String) (p : KwParse)
  /-- NULL / missing. -/
  | rnull
deriving Repr, DecidableEq

/-- Defensive keyword normalization of `send_email_to_user`: a list is
used as-is; a non-blank string is JSON-parsed, a parsed list is used, and
any other parse outcome makes the whole string one literal keyword; a
blank string or NULL yields no keywords. -/
def normalize_keywords : RawKeywords → List String
  | .rlist ks => ks
  | .rstr s p =>
      if s.trim.isEmpty then []
      else
        match p with
        | .plist ks => ks
        | .pother => [s]
        | .perr => [s]
  | .rnull => []

/-- Columns of the `users` row read by the dispatcher.  `enabled` is the
truthiness of `email_notifications_enabled` (missing/NULL reads as
false through `user.get(..., False)`). -/
structure UserRow where
  email : Option String := none
  enabled : Bool := false
  keywords : RawKeywords := .rnull
deriving Repr, DecidableEq

/-- Model of `send_email_to_user(supabase_client, user_id)`.

`user` is the fetched user row (`none` when the lookup found nothing);
`jobRows` are the user's `new`-status job links resolved against the
`jobs` table, in the fetched (newest-link-first) order, `none` marking a
link whose job row could not be loaded.  The second component of the
result records whether the Resend send collaborator was invoked. -/
def send_email_to_user (apiKey : Option String)
    (sendApi : String → String → Except String String)
    (user : Option UserRow) (jobRows : List (Option EJob)) (today : Int) :
    SendOutcome × Bool :=
  match user with
  | none => ({ success := false, error := some "User not found" }, false)
  | some u =>
      let keywords := normalize_keywords u.keywords
      if !u.enabled then
        ({ success := true, skipped := true, reason := some "notifications_disabled" }, false)
      else
        let userEmail := u.email.getD ""
        if userEmail.isEmpty then
          ({ success := false, error := some "No email address" }, false)
        else if keywords.isEmpty then
          ({ success := true, skipped := true, reason := some "no_keywords" }, false)
        else
          let filteredJobs := filter_jobs_by_keywords keywords jobRows
          let sortedJobs := sortJobsDesc filteredJobs
          send_job_email apiKey sendApi userEmail sortedJobs today

/-- Modelled from the spec (for the C6 refinement comparison): "A job
matches if any non-empty, trimmed keyword (case-folded) occurs as a
substring of the job's title (case-folded).  Jobs without a title never
match." -/
def specKeywordMatch (keywords : List String) (j : EJob) : Bool :=
  match j.title with
  | none => false
  | some t =>
      keywords.any (fun k =>
        let ks := stripCodes (codes k)
        !ks.isEmpty && containsSub (lowerCodes (codes t)) (lowerCodes ks))

/-- Effective date of the posted-date rule: the parsed `date_posted`,
falling back to the parsed `created_at`. -/
def effectiveDate (datePosted createdAt : DateField) : Option Int :=
  match parseDate datePosted with
  | some d => some d
  | none => parseDate createdAt

end EmailSvc

/-! ## Claims -/

/-- C3: every per-site update of a run's cumulative `jobs_found` adds to
the previously stored value, never overwrites it: any status update
leaves the counter non-decreasing; an increment-only update with a
saved-count `k` stores exactly the old value plus `k`; and two sites each
reporting 3 saved jobs leave a run that started at zero (or NULL) with a
final `jobs_found` of exactly 6. -/
theorem c3_jobs_found_accumulates :
    (∀ (run : MainSvc.RunRecord) (st : String) (err : Option String)
        (jf : Option Nat) (inc : Bool),
        MainSvc.jobsFoundVal run ≤
          MainSvc.jobsFoundVal (MainSvc.update_search_run_status run st err jf inc)) ∧
    (∀ (run : MainSvc.RunRecord) (k : Nat),
        (MainSvc.update_search_run_status run "" none (some k) true).jobs_found
          = some (MainSvc.jobsFoundVal run + k)) ∧
    (∀ (run : MainSvc.RunRecord), run.jobs_found = none ∨ run.jobs_found = some 0 →
        (MainSvc.update_search_run_status
            (MainSvc.update_search_run_status run "" none (some 3) true)
            "" none (some 3) true).jobs_found = some 6) := by
  refine ⟨?_, ?_, ?_⟩
  · intro run st err jf inc
    cases jf with
    | none =>
        cases inc <;>
          simp [MainSvc.update_search_run_status, MainSvc.jobsFoundVal]
    | some k =>
        cases inc <;>
          · simp only [MainSvc.update_search_run_status, MainSvc.jobsFoundVal]
            cases run.jobs_found <;> simp only [] <;> split_ifs <;> omega
  · intro run k
    simp [MainSvc.update_search_run_status]
  · intro run h
    rcases h with h | h <;>
      simp [MainSvc.update_search_run_status, MainSvc.jobsFoundVal, h]

/-- Witness for C3 at a concrete pristine run record. -/
theorem c3_jobs_found_accumulates_witness :
    (MainSvc.update_search_run_status
        (MainSvc.update_search_run_status
          { status := "running", jobs_found := none, error_message := none
            startedAt := true, completedAt := false }
          "" none (some 3) true)
        "" none (some 3) true).jobs_found = some 6 :=
  c3_jobs_found_accumulates.2.2
    { status := "running", jobs_found := none, error_message := none
      startedAt := true, completedAt := false }
    (Or.inl rfl)

/-- C7: the rendered posted-date label is `Today` when the effective date
(posted date, else record-creation date) equals today at UTC midnight,
`Yesterday` when it is exactly one day earlier, `{N} days ago` when it is
`N ≥ 2` days earlier, and `Today` when neither field yields a parseable
date. -/
theorem c7_posted_date_label :
    ∀ (dp ca : EmailSvc.DateField) (today N : Int),
      (EmailSvc.effectiveDate dp ca = some today →
        EmailSvc.format_posted_date dp ca today = "Today") ∧
      (EmailSvc.effectiveDate dp ca = some (today - 1) →
        EmailSvc.format_posted_date dp ca today = "Yesterday") ∧
      (2 ≤ N → EmailSvc.effectiveDate dp ca = some (today - N) →
        EmailSvc.format_posted_date dp ca today = toString N ++ " days ago") ∧
      (EmailSvc.effectiveDate dp ca = none →
        EmailSvc.format_posted_date dp ca today = "Today") := by
  intro dp ca today N
  have hfmt : ∀ d : Int, EmailSvc.effectiveDate dp ca = some d →
      EmailSvc.format_posted_date dp ca today = EmailSvc.dateLabel (today - d) := by
    intro d h
    cases dp <;> cases ca <;>
      simp_all [EmailSvc.effectiveDate, EmailSvc.parseDate, EmailSvc.format_posted_date]
  have hnone : EmailSvc.effectiveDate dp ca = none →
      EmailSvc.format_posted_date dp ca today = "Today" := by
    intro h
    cases dp <;> cases ca <;>
      simp_all [EmailSvc.effectiveDate, EmailSvc.parseDate, EmailSvc.format_posted_date]
  refine ⟨?_, ?_, ?_, hnone⟩
  · intro h
    rw [hfmt today h]
    simp [EmailSvc.dateLabel]
  · intro h
    rw [hfmt (today - 1) h]
    have h1 : today - (today - 1) = 1 := by ring
    rw [h1]
    simp [EmailSvc.dateLabel]
  · intro hN h
    rw [hfmt (today - N) h]
    have h1 : today - (today - N) = N := by ring
    rw [h1]
    have h0 : ¬(N = 0) := by omega
    have h2 : ¬(N = 1) := by omega
    simp [EmailSvc.dateLabel, h0, h2]

/-- Witness for C7 at concrete day numbers (day 5 seen from day 7 is
two days ago; missing dates default to Today). -/
theorem c7_posted_date_label_witness :
    EmailSvc.format_posted_date (.parsed 5) .absent 7 = toString (2 : Int) ++ " days ago" ∧
    EmailSvc.format_posted_date .absent .unparseable 7 = "Today" :=
  ⟨(c7_posted_date_label (.parsed 5) .absent 7 2).2.2.1 (by decide) (by decide),
   (c7_posted_date_label .absent .unparseable 7 0).2.2.2 (by decide)⟩

/-- C8 counterexample: a job whose `salary_min` is present but `0` (with
`salary_max` present and positive) renders NO salary fragment, because
the source guards with Python truthiness (`if job.get("salary_min") and
job.get("salary_max")`), under which a present `0` is falsy — refuting
the claim that the range is shown whenever both values are present,
including `0`. -/
theorem c8_salary_zero_counterexample :
    (some (0 : Int)).isSome = true ∧ (some (50000 : Int)).isSome = true ∧
    EmailSvc.salary_html (some 0) (some 50000) .null = "" := by
  refine ⟨rfl, rfl, ?_⟩
  rfl

/-- C8 (amended): the rendered digest shows a salary range iff both
`salary_min` and `salary_max` are present AND nonzero (Python
truthiness), formatted as thousands-grouped integers each prefixed with
the rendered currency value; that value is the `$` default only when the
currency key is ABSENT, while a stored NULL currency — the shape the
digest fetch delivers for rows the pipeline inserts without a currency —
renders the literal `None` prefix instead. -/
theorem c8_salary_shown_iff_truthy :
    ∀ (mn mx : Option Int) (cur : EmailSvc.CurrencyField),
      ((EmailSvc.salary_html mn mx cur).length ≠ 0 ↔
        EmailSvc.truthyInt mn = true ∧ EmailSvc.truthyInt mx = true) ∧
      (∀ a b : Int, a ≠ 0 → b ≠ 0 →
        EmailSvc.salary_html (some a) (some b) cur =
          "<span>" ++ EmailSvc.currencyStr cur ++ EmailSvc.groupInt a ++ " - " ++
            EmailSvc.currencyStr cur ++ EmailSvc.groupInt b ++ "</span>") ∧
      (EmailSvc.currencyStr .missing = "$" ∧ EmailSvc.currencyStr .null = "None") := by
  intro mn mx cur
  refine ⟨?_, ?_, rfl, rfl⟩
  · unfold EmailSvc.salary_html
    split
    · rename_i h
      rw [Bool.and_eq_true] at h
      simp only [String.length_append]
      constructor
      · intro _
        exact h
      · intro _
        have : ("<span>" : String).length = 6 := rfl
        omega
    · rename_i h
      rw [Bool.and_eq_true] at h
      simp only [String.length]
      constructor
      · intro hne
        exact absurd rfl hne
      · intro hc
        exact absurd hc h
  · intro a b ha hb
    have hta : EmailSvc.truthyInt (some a) = true := by
      simp [EmailSvc.truthyInt, ha]
    have htb : EmailSvc.truthyInt (some b) = true := by
      simp [EmailSvc.truthyInt, hb]
    unfold EmailSvc.salary_html
    rw [hta, htb]
    rfl

/-- Witness for C8 (amended) at concrete salary values over a NULL
currency row, the shape the pipeline writes when the scrape provides no
currency: the rendered prefix is the literal `None`, not `$`. -/
theorem c8_salary_shown_iff_truthy_witness :
    EmailSvc.salary_html (some 50000) (some 70000) .null =
      "<span>" ++ EmailSvc.currencyStr .null ++ EmailSvc.groupInt 50000 ++ " - " ++
        EmailSvc.currencyStr .null ++ EmailSvc.groupInt 70000 ++ "</span>" :=
  (c8_salary_shown_iff_truthy (some 50000) (some 70000) .null).2.1 50000 70000
    (by decide) (by decide)

/-- Job record that crashes the renderer: no logo URL and an
empty-string company name. -/
def crashJob : EmailSvc.EJob :=
  { title := some "Developer", company := some "",
    job_url := some "https://example.com/j/1" }

/-- C10: a job list containing a job with no `company_logo_url` and an
empty-string company makes the renderer raise (indexing `[0]` of the
empty company string for the placeholder avatar) instead of producing an
HTML document, and the single-recipient send operation consequently
returns a result with `success = false` (without reaching the send
collaborator). -/
theorem c10_empty_company_render_crash :
    EmailSvc.render_email_template 20000 [crashJob] "user@example.com" = .error () ∧
    EmailSvc.send_job_email (some "re_key") (fun _ _ => .ok "msg-1")
        "user@example.com" [crashJob] 20000 =
      ({ success := false, error := some "string index out of range" }, false) :=
  ⟨rfl, rfl⟩

/-- C4 counterexample: a user with notifications ENABLED, keywords
configured, but NO email address does not get a skipped outcome — the
source returns `{"success": False, "error": "No email address"}`, a
failure result, refuting the claim that all three short-circuit cases
yield `success = true, skipped = true`. -/
theorem c4_no_email_counterexample :
    EmailSvc.send_email_to_user (some "re_key") (fun _ _ => .ok "msg-1")
        (some { email := none, enabled := true, keywords := .rlist ["engineer"] })
        [] 20000 =
      ({ success := false, error := some "No email address" }, false) := rfl

/-- C4 (amended): the per-user dispatch short-circuits before reaching
the email-send collaborator in all three cases, but only two of them are
skipped outcomes: notifications disabled yields
`success = true, skipped = true, reason = notifications_disabled` and
no keywords yields `success = true, skipped = true, reason =
no_keywords`, while a missing email address (checked after the
disabled check) yields a failure result `success = false, error =
No email address`; in each case the email-send collaborator is not
invoked (second component `false`). -/
theorem c4_short_circuits :
    ∀ (apiKey : Option String) (sendApi : String → String → Except String String)
      (u : EmailSvc.UserRow) (jobRows : List (Option EmailSvc.EJob)) (today : Int),
      (u.enabled = false →
        EmailSvc.send_email_to_user apiKey sendApi (some u) jobRows today =
          ({ success := true, skipped := true, reason := some "notifications_disabled" },
            false)) ∧
      (u.enabled = true → (u.email.getD "").isEmpty = true →
        EmailSvc.send_email_to_user apiKey sendApi (some u) jobRows today =
          ({ success := false, error := some "No email address" }, false)) ∧
      (u.enabled = true → (u.email.getD "").isEmpty = false →
        (EmailSvc.normalize_keywords u.keywords).isEmpty = true →
        EmailSvc.send_email_to_user apiKey sendApi (some u) jobRows today =
          ({ success := true, skipped := true, reason := some "no_keywords" }, false)) := by
  intro apiKey sendApi u jobRows today
  refine ⟨?_, ?_, ?_⟩
  · intro h
    simp [EmailSvc.send_email_to_user, h]
  · intro h he
    simp [EmailSvc.send_email_to_user, h, he]
  · intro h he hk
    simp [EmailSvc.send_email_to_user, h, he, hk]

/-- Witness for C4 (amended): a concrete disabled user is skipped with
reason `notifications_disabled` and the send collaborator is not
invoked. -/
theorem c4_short_circuits_witness :
    EmailSvc.send_email_to_user (some "re_key") (fun _ _ => .ok "msg-1")
        (some { email := some "a@b.c", enabled := false, keywords := .rlist ["engineer"] })
        [] 20000 =
      ({ success := true, skipped := true, reason := some "notifications_disabled" },
        false) :=
  (c4_short_circuits (some "re_key") (fun _ _ => .ok "msg-1")
    { email := some "a@b.c", enabled := false, keywords := .rlist ["engineer"] }
    [] 20000).1 rfl

/-- Every save obtains a job id in the relational model: a fresh
`job_url` inserts, a duplicate one resolves to the existing row. -/
theorem save_job_obtains_id (db : MainSvc.DB) (url userId : String) :
    (MainSvc.save_job_to_database db url userId).1.isSome = true := by
  unfold MainSvc.save_job_to_database
  cases db.jobs.find? (fun r => r.2 == url) <;> simp <;> split_ifs <;> simp

/-- The saved-count fold adds one for every processed job. -/
theorem save_jobs_fold_count (urls : List String) (userId : String) :
    ∀ acc : Nat × MainSvc.DB,
    (urls.foldl
      (fun acc url =>
        let r := MainSvc.save_job_to_database acc.2 url userId
        ((if r.1.isSome then acc.1 + 1 else acc.1), r.2))
      acc).1 = acc.1 + urls.length := by
  induction urls with
  | nil => intro acc; simp
  | cons u rest ih =>
      intro acc
      rw [List.foldl_cons, ih]
      simp only [save_job_obtains_id, if_true, List.length_cons]
      omega

/-- C1 counterexample: with a configured database, a scrape whose only
job is a duplicate `job_url` ALREADY LINKED to this user still reports a
saved-count of 1 (the duplicate insert resolves to the existing row id,
which is truthy, and the already-existing user link is silently
swallowed), and the site status is `completed: 1 jobs` — not the claimed
saved-count 0 with status `completed: 0 saved (duplicates)`. -/
theorem c1_duplicate_counts_counterexample :
    (MainSvc.save_jobs_to_database
        { jobs := [(1, "https://x/jobs/1")], userJobs := [("alice", 1)], nextId := 2 }
        ["https://x/jobs/1"] "alice").1 = 1 ∧
    MainSvc.siteStatusAfterSave
        (MainSvc.save_jobs_to_database
          { jobs := [(1, "https://x/jobs/1")], userJobs := [("alice", 1)], nextId := 2 }
          ["https://x/jobs/1"] "alice").1
      = MainSvc.outcomeStr (.completed 1) ∧
    MainSvc.siteStatusAfterSave
        (MainSvc.save_jobs_to_database
          { jobs := [(1, "https://x/jobs/1")], userJobs := [("alice", 1)], nextId := 2 }
          ["https://x/jobs/1"] "alice").1
      ≠ MainSvc.outcomeStr .completedDup := by
  refine ⟨rfl, rfl, ?_⟩
  decide

/-- C1 (amended): with a configured database and an owning user, the
per-site saved-count is the number of jobs for which a job id was
obtained — an insert or a duplicate lookup both count, so duplicates
already linked to this user still count toward the saved-count.  The
count therefore equals the scraped count, the site status for a
non-empty scrape is `completed: {n} jobs`, and the
`completed: 0 saved (duplicates)` status is recorded only when the
saved-count is 0. -/
theorem c1_saved_count_counts_duplicates :
    ∀ (db : MainSvc.DB) (urls : List String) (userId : String),
      userId.isEmpty = false →
      (MainSvc.save_jobs_to_database db urls userId).1 = urls.length ∧
      (urls ≠ [] →
        MainSvc.siteStatusAfterSave (MainSvc.save_jobs_to_database db urls userId).1
          = MainSvc.outcomeStr (.completed urls.length)) := by
  intro db urls userId h
  have hc : (MainSvc.save_jobs_to_database db urls userId).1 = urls.length := by
    unfold MainSvc.save_jobs_to_database
    rw [h]
    simp only [Bool.false_eq_true, if_false]
    rw [save_jobs_fold_count urls userId (0, db)]
    omega
  refine ⟨hc, ?_⟩
  intro hne
  rw [hc]
  unfold MainSvc.siteStatusAfterSave
  rw [if_pos (List.length_pos.mpr hne)]

/-- Witness for C1 (amended) at the all-duplicates store. -/
theorem c1_saved_count_counts_duplicates_witness :
    (MainSvc.save_jobs_to_database
        { jobs := [(1, "https://x/jobs/1"), (2, "https://x/jobs/2")],
          userJobs := [("alice", 1), ("alice", 2)], nextId := 3 }
        ["https://x/jobs/1", "https://x/jobs/2"] "alice").1 = 2 ∧
    MainSvc.siteStatusAfterSave
        (MainSvc.save_jobs_to_database
          { jobs := [(1, "https://x/jobs/1"), (2, "https://x/jobs/2")],
            userJobs := [("alice", 1), ("alice", 2)], nextId := 3 }
          ["https://x/jobs/1", "https://x/jobs/2"] "alice").1
      = MainSvc.outcomeStr (.completed 2) := by
  have h := c1_saved_count_counts_duplicates
    { jobs := [(1, "https://x/jobs/1"), (2, "https://x/jobs/2")],
      userJobs := [("alice", 1), ("alice", 2)], nextId := 3 }
    ["https://x/jobs/1", "https://x/jobs/2"] "alice" (by decide)
  exact ⟨h.1, h.2 (by decide)⟩

/-- C9: for a job with a non-empty company name where the
professional-network extraction yields nothing and the verification
probe of the Clearbit candidate fails, `get_logo_for_job` returns the
Logo.dev URL; the final unverified-Clearbit fallback is unreachable
because `get_logo_dev_url` never returns `none` for a non-empty company
name. -/
theorem c9_logo_dev_before_fallback :
    ∀ (linkedinFetch : List Nat → List Nat → Option (List Nat))
      (verify : List Nat → Bool) (job : LogoSvc.LFJob),
      job.company ≠ [] →
      linkedinFetch job.job_url job.company = none →
      (∀ cb, LogoSvc.get_clearbit_logo job.company (some job.job_url) = some cb →
        verify cb = false) →
      (LogoSvc.get_logo_dev_url job.company).isSome = true ∧
      LogoSvc.get_logo_for_job linkedinFetch verify job =
        LogoSvc.get_logo_dev_url job.company := by
  intro lk vf job hc hlk hv
  have hce : job.company.isEmpty = false := by
    cases hcc : job.company with
    | nil => exact absurd hcc hc
    | cons a t => rfl
  have hld : (LogoSvc.get_logo_dev_url job.company).isSome = true := by
    unfold LogoSvc.get_logo_dev_url
    rw [hce]
    rfl
  refine ⟨hld, ?_⟩
  have hcb : (LogoSvc.get_clearbit_logo job.company (some job.job_url)).isSome = true := by
    unfold LogoSvc.get_clearbit_logo
    rw [hce]
    simp only [Bool.false_eq_true, if_false]
    split <;> rfl
  obtain ⟨cb, hcbe⟩ := Option.isSome_iff_exists.mp hcb
  obtain ⟨ld, hlde⟩ := Option.isSome_iff_exists.mp hld
  simp only [LogoSvc.get_logo_for_job, hce, Bool.false_eq_true, if_false]
  have hstep1 :
      (if containsSub (lowerCodes job.site) (codes "linkedin")
            || containsSub job.job_url (codes "linkedin.com") then
          lk job.job_url job.company
        else none) = none := by
    split
    · exact hlk
    · rfl
  rw [hstep1, hcbe]
  show (if vf cb = true then some cb
        else
          match LogoSvc.get_logo_dev_url job.company with
          | some ld => some ld
          | none => some cb) = LogoSvc.get_logo_dev_url job.company
  rw [hv cb hcbe]
  simp only [Bool.false_eq_true, if_false]
  rw [hlde]

/-- Witness for C9 at a concrete non-network job with failing probes. -/
theorem c9_logo_dev_before_fallback_witness :
    (LogoSvc.get_logo_dev_url (codes "Acme Corp")).isSome = true ∧
    LogoSvc.get_logo_for_job (fun _ _ => none) (fun _ => false)
        { job_url := codes "https://boards.example.com/jobs/1",
          company := codes "Acme Corp", site := codes "indeed" } =
      LogoSvc.get_logo_dev_url (codes "Acme Corp") :=
  c9_logo_dev_before_fallback (fun _ _ => none) (fun _ => false)
    { job_url := codes "https://boards.example.com/jobs/1",
      company := codes "Acme Corp", site := codes "indeed" }
    (by decide) rfl (fun _ _ => rfl)

/-- Job record used to exercise the bulk logo fetch. -/
def dupJob : LogoSvc.LFJob :=
  { job_url := codes "https://boards.example.com/jobs/1",
    company := codes "acme", site := codes "indeed" }

/-- C5 counterexample: a job list with two EQUAL entries does not get the
second entry's logo — the source stores every future's result at
`jobs.index(job)`, the index of the FIRST equal entry, so the second slot
keeps its initial `None` even though resolving that job yields a URL.
This refutes the claim that the i-th element is the logo resolved for the
i-th input job for lists containing duplicate entries. -/
theorem c5_duplicate_entries_counterexample :
    LogoSvc.fetch_logos_for_jobs (fun _ _ => none) (fun _ => false) (fun _ => false)
        [dupJob, dupJob] =
      [LogoSvc.get_logo_for_job (fun _ _ => none) (fun _ => false) dupJob, none] ∧
    LogoSvc.get_logo_for_job (fun _ _ => none) (fun _ => false) dupJob ≠ none := by
  refine ⟨rfl, ?_⟩
  decide

/-- C5 (amended): the bulk logo resolution returns a list of the same
length as the input; for a job list WITHOUT duplicate entries the i-th
element is exactly the logo resolved for the i-th input job (input order
preserved regardless of completion order), with a per-item worker
failure degrading to the unverified company-name domain-guess URL for
that item rather than aborting the batch; a duplicate entry's position
(any occurrence after the first) yields `none` instead. -/
theorem c5_bulk_order_preserved :
    ∀ (lk : List Nat → List Nat → Option (List Nat)) (vf : List Nat → Bool)
      (crash : LogoSvc.LFJob → Bool) (jobs : List LogoSvc.LFJob),
      (LogoSvc.fetch_logos_for_jobs lk vf crash jobs).length = jobs.length ∧
      (jobs.Nodup →
        LogoSvc.fetch_logos_for_jobs lk vf crash jobs =
          jobs.map (fun j =>
            if crash j then LogoSvc.get_clearbit_logo j.company none
            else LogoSvc.get_logo_for_job lk vf j)) := by
  intro lk vf crash jobs
  constructor
  · simp [LogoSvc.fetch_logos_for_jobs, List.enum_length]
  · intro hnd
    apply List.ext_getElem
    · simp [LogoSvc.fetch_logos_for_jobs, List.enum_length]
    · intro i h1 h2
      have hi : i < jobs.length := by
        simpa using h2
      have hienum : i < jobs.enum.length := by
        simpa [List.enum_length] using hi
      simp only [LogoSvc.fetch_logos_for_jobs, List.getElem_map, List.getElem_enum]
      have him : jobs[i] ∈ jobs := List.getElem_mem hi
      have hlt : List.indexOf jobs[i] jobs < jobs.length :=
        List.indexOf_lt_length.mpr him
      have hidx : List.indexOf jobs[i] jobs = i :=
        (List.Nodup.getElem_inj_iff hnd).mp (List.getElem_indexOf hlt)
      rw [hidx]
      simp

/-- Witness for C5 (amended) on two distinct jobs, the second of which
crashes its worker and degrades to the Clearbit domain guess. -/
theorem c5_bulk_order_preserved_witness :
    LogoSvc.fetch_logos_for_jobs (fun _ _ => none) (fun _ => false)
        (fun j => j.company == codes "beta")
        [{ job_url := codes "https://a.example.com/1", company := codes "alpha",
           site := codes "indeed" },
         { job_url := codes "https://b.example.com/2", company := codes "beta",
           site := codes "glassdoor" }] =
      [LogoSvc.get_logo_for_job (fun _ _ => none) (fun _ => false)
          { job_url := codes "https://a.example.com/1", company := codes "alpha",
            site := codes "indeed" },
       LogoSvc.get_clearbit_logo (codes "beta") none] := by
  have h := (c5_bulk_order_preserved (fun _ _ => none) (fun _ => false)
      (fun j => j.company == codes "beta")
      [{ job_url := codes "https://a.example.com/1", company := codes "alpha",
         site := codes "indeed" },
       { job_url := codes "https://b.example.com/2", company := codes "beta",
         site := codes "glassdoor" }]).2 (by decide)
  exact h.trans (by decide)

/-- A list is a `isPrefixOf` itself extended by anything. -/
theorem isPrefixOf_append_self {α : Type} [BEq α] [LawfulBEq α] (p r : List α) :
    p.isPrefixOf (p ++ r) = true := by
  induction p with
  | nil => simp [List.isPrefixOf]
  | cons a t ih => simp [List.isPrefixOf, ih]

/-- Decimal digits are never the letter f. -/
theorem decDigit_ne_f (d : Nat) : decDigit d ≠ 'f' := by
  unfold decDigit
  repeat' split
  all_goals decide

/-- Decimal renderings contain no letter f. -/
theorem natCharsAux_no_f (fuel n : Nat) : ∀ c ∈ natCharsAux fuel n, c ≠ 'f' := by
  induction fuel generalizing n with
  | zero => intro c hc; simp [natCharsAux] at hc
  | succ fuel ih =>
      intro c hc
      unfold natCharsAux at hc
      split at hc
      · simp at hc
        subst hc
        exact decDigit_ne_f n
      · rw [List.mem_append] at hc
        cases hc with
        | inl h => exact ih (n / 10) c h
        | inr h =>
            simp at h
            subst h
            exact decDigit_ne_f (n % 10)

/-- A string without the letter f does not contain `failed`. -/
theorem noF_not_containsSub (s : List Char) (h : ∀ c ∈ s, c ≠ 'f') :
    containsSub s (chars "failed") = false := by
  induction s with
  | nil => rfl
  | cons a t ih =>
      have ha : ('f' == a) = false := by
        have : a ≠ 'f' := h a (List.mem_cons_self a t)
        simp [BEq.beq]
        intro hfa
        exact this hfa.symm
      show ((chars "failed").isPrefixOf (a :: t) || containsSub t (chars "failed")) = false
      rw [ih (fun c hc => h c (List.mem_cons_of_mem a hc))]
      show ((('f' : Char) :: chars "ailed").isPrefixOf (a :: t) || false) = false
      simp [List.isPrefixOf, ha]

/-- A status string starts with `completed` exactly for the completed
outcomes. -/
theorem completed_isPrefixOf_outcome (o : MainSvc.SiteOutcome) :
    (chars "completed").isPrefixOf (MainSvc.outcomeStr o)
      = MainSvc.isCompletedOutcome o := by
  cases o with
  | completed n =>
      show (chars "completed").isPrefixOf
        (chars "completed: " ++ natChars n ++ chars " jobs") = true
      have hsplit : chars "completed: " = chars "completed" ++ chars ": " := rfl
      rw [hsplit, List.append_assoc, List.append_assoc]
      exact isPrefixOf_append_self _ _
  | completedDup => decide
  | failedSite r =>
      show (chars "completed").isPrefixOf (chars "failed: " ++ r) = false
      show ((('c' : Char) :: chars "ompleted").isPrefixOf
        (('f' : Char) :: (chars "ailed: " ++ r))) = false
      simp [List.isPrefixOf]

/-- A status string contains `failed` exactly for the failed outcome. -/
theorem containsSub_failed_outcome (o : MainSvc.SiteOutcome) :
    containsSub (MainSvc.outcomeStr o) (chars "failed")
      = !MainSvc.isCompletedOutcome o := by
  cases o with
  | completed n =>
      show containsSub (chars "completed: " ++ natChars n ++ chars " jobs")
        (chars "failed") = false
      apply noF_not_containsSub
      intro c hc
      rw [List.append_assoc, List.mem_append] at hc
      cases hc with
      | inl h => revert c; decide
      | inr h =>
          rw [List.mem_append] at h
          cases h with
          | inl h2 => exact natCharsAux_no_f (n + 1) n c h2
          | inr h2 => revert c; decide
  | completedDup => decide
  | failedSite r =>
      show containsSub (chars "failed: " ++ r) (chars "failed") = true
      show ((chars "failed").isPrefixOf (chars "failed: " ++ r)
        || containsSub (chars "ailed: " ++ r) (chars "failed")) = true
      have hsplit : chars "failed: " = chars "failed" ++ chars ": " := rfl
      rw [hsplit, List.append_assoc, isPrefixOf_append_self, Bool.true_or]

/-- The `dbStatus` field of `log_final_status`, unfolded. -/
theorem log_final_dbStatus (st : List (List Char × List Char)) (inc : Bool)
    (rid : Option String) :
    (MainSvc.log_final_status st inc rid).dbStatus =
      (if (st.filter (fun p => (chars "completed").isPrefixOf p.2)).length = st.length
       then "success"
       else if 0 < (st.filter (fun p => (chars "completed").isPrefixOf p.2)).length
       then "success" else "failed") := rfl

/-- The `errorMessage` field of `log_final_status`, unfolded. -/
theorem log_final_errorMessage (st : List (List Char × List Char)) (inc : Bool)
    (rid : Option String) :
    (MainSvc.log_final_status st inc rid).errorMessage =
      (if (MainSvc.log_final_status st inc rid).dbStatus = "failed" then
        some (List.intercalate (chars "; ")
          ((st.filter (fun p => containsSub p.2 (chars "failed"))).map
            (fun p => p.1 ++ chars ": " ++ p.2)))
      else none) := rfl

/-- C2: over a non-empty site set with terminal per-site outcomes, the
finalized stored run status is `success` iff at least one site's terminal
status is a completed status (`completed: {n} jobs` — including
`completed: 0 jobs` — or `completed: 0 saved (duplicates)`), and `failed`
otherwise; in the failed case the stored error message concatenates each
failed site's `{site}: failed: {reason}` entry with `"; "` — every site,
since a failed run has only failed sites. -/
theorem c2_run_success_iff_site_completed :
    ∀ (sites : List (List Char × MainSvc.SiteOutcome)) (runId : Option String),
      sites ≠ [] →
      ((MainSvc.log_final_status
          (sites.map (fun p => (p.1, MainSvc.outcomeStr p.2))) false runId).dbStatus
          = "success" ↔
        ∃ p ∈ sites, MainSvc.isCompletedOutcome p.2 = true) ∧
      ((MainSvc.log_final_status
          (sites.map (fun p => (p.1, MainSvc.outcomeStr p.2))) false runId).dbStatus
          = "failed" ↔
        ¬∃ p ∈ sites, MainSvc.isCompletedOutcome p.2 = true) ∧
      ((MainSvc.log_final_status
          (sites.map (fun p => (p.1, MainSvc.outcomeStr p.2))) false runId).dbStatus
          = "failed" →
        (MainSvc.log_final_status
          (sites.map (fun p => (p.1, MainSvc.outcomeStr p.2))) false runId).errorMessage
          = some (List.intercalate (chars "; ")
              (sites.map (fun p => p.1 ++ chars ": " ++ MainSvc.outcomeStr p.2)))) := by
  intro sites runId hne
  have hfilter :
      (sites.map (fun p => (p.1, MainSvc.outcomeStr p.2))).filter
          (fun p => (chars "completed").isPrefixOf p.2)
        = (sites.filter (fun p => MainSvc.isCompletedOutcome p.2)).map
            (fun p => (p.1, MainSvc.outcomeStr p.2)) := by
    rw [List.filter_map]
    congr 1
    apply List.filter_congr
    intro x _
    exact completed_isPrefixOf_outcome x.2
  have hcc :
      ((sites.map (fun p => (p.1, MainSvc.outcomeStr p.2))).filter
          (fun p => (chars "completed").isPrefixOf p.2)).length
        = (sites.filter (fun p => MainSvc.isCompletedOutcome p.2)).length := by
    rw [hfilter, List.length_map]
  have hex : 0 < (sites.filter (fun p => MainSvc.isCompletedOutcome p.2)).length ↔
      ∃ p ∈ sites, MainSvc.isCompletedOutcome p.2 = true := by
    rw [List.length_pos]
    constructor
    · intro h
      obtain ⟨x, hx⟩ := List.exists_mem_of_ne_nil _ h
      rw [List.mem_filter] at hx
      exact ⟨x, hx.1, hx.2⟩
    · intro ⟨p, hp, hcp⟩ hnil
      rw [List.filter_eq_nil_iff] at hnil
      exact hnil p hp hcp
  have hlen : (sites.map (fun p => (p.1, MainSvc.outcomeStr p.2))).length
      = sites.length := List.length_map _ _
  have hsuccess :
      (MainSvc.log_final_status
          (sites.map (fun p => (p.1, MainSvc.outcomeStr p.2))) false runId).dbStatus
        = "success" ↔ ∃ p ∈ sites, MainSvc.isCompletedOutcome p.2 = true := by
    rw [log_final_dbStatus, hcc, hlen]
    by_cases h1 : (sites.filter (fun p => MainSvc.isCompletedOutcome p.2)).length
        = sites.length
    · rw [if_pos h1]
      simp only [true_iff]
      rw [← hex, h1, List.length_pos]
      exact hne
    · rw [if_neg h1]
      by_cases h2 : 0 < (sites.filter (fun p => MainSvc.isCompletedOutcome p.2)).length
      · rw [if_pos h2]
        simp only [true_iff]
        exact hex.mp h2
      · rw [if_neg h2]
        constructor
        · intro hfs
          exact absurd hfs (by decide)
        · intro hx
          exact absurd (hex.mpr hx) h2
  have hfailiff :
      (MainSvc.log_final_status
          (sites.map (fun p => (p.1, MainSvc.outcomeStr p.2))) false runId).dbStatus
        = "failed" ↔ ¬∃ p ∈ sites, MainSvc.isCompletedOutcome p.2 = true := by
    rw [log_final_dbStatus, hcc, hlen]
    by_cases h1 : (sites.filter (fun p => MainSvc.isCompletedOutcome p.2)).length
        = sites.length
    · rw [if_pos h1]
      constructor
      · intro hfs
        exact absurd hfs (by decide)
      · intro hx
        exfalso
        apply hx
        rw [← hex, h1, List.length_pos]
        exact hne
    · rw [if_neg h1]
      by_cases h2 : 0 < (sites.filter (fun p => MainSvc.isCompletedOutcome p.2)).length
      · rw [if_pos h2]
        constructor
        · intro hfs
          exact absurd hfs (by decide)
        · intro hx
          exact absurd (hex.mp h2) hx
      · rw [if_neg h2]
        simp only [true_iff]
        intro hx
        exact absurd (hex.mpr hx) h2
  refine ⟨hsuccess, hfailiff, ?_⟩
  intro hfs
  have hnone : ∀ p ∈ sites, MainSvc.isCompletedOutcome p.2 = false := by
    intro p hp
    by_contra hcp
    exact (hfailiff.mp hfs) ⟨p, hp, by revert hcp; cases MainSvc.isCompletedOutcome p.2 <;> simp⟩
  rw [log_final_errorMessage, if_pos hfs]
  congr 1
  rw [List.filter_map]
  have hfail_all :
      (sites.filter
        ((fun (p : List Char × List Char) => containsSub p.2 (chars "failed")) ∘
          (fun p => (p.1, MainSvc.outcomeStr p.2)))) = sites := by
    rw [List.filter_eq_self]
    intro p hp
    show containsSub (MainSvc.outcomeStr p.2) (chars "failed") = true
    rw [containsSub_failed_outcome, hnone p hp]
    rfl
  rw [hfail_all, List.map_map]
  rfl

/-- Witness for C2: one completed and one failed site finalize as
`success`; two failed sites finalize as `failed` with the concatenated
per-site error message. -/
theorem c2_run_success_iff_site_completed_witness :
    (MainSvc.log_final_status
        ([(chars "indeed", MainSvc.SiteOutcome.completed 2),
          (chars "linkedin", MainSvc.SiteOutcome.failedSite (chars "boom"))].map
          (fun p => (p.1, MainSvc.outcomeStr p.2))) false (some "run-1")).dbStatus
      = "success" ∧
    (MainSvc.log_final_status
        ([(chars "indeed", MainSvc.SiteOutcome.failedSite (chars "bad")),
          (chars "linkedin", MainSvc.SiteOutcome.failedSite (chars "boom"))].map
          (fun p => (p.1, MainSvc.outcomeStr p.2))) false (some "run-1")).errorMessage
      = some (List.intercalate (chars "; ")
          ([(chars "indeed", MainSvc.SiteOutcome.failedSite (chars "bad")),
            (chars "linkedin", MainSvc.SiteOutcome.failedSite (chars "boom"))].map
            (fun p => p.1 ++ chars ": " ++ MainSvc.outcomeStr p.2))) := by
  constructor
  · exact (c2_run_success_iff_site_completed
      [(chars "indeed", MainSvc.SiteOutcome.completed 2),
       (chars "linkedin", MainSvc.SiteOutcome.failedSite (chars "boom"))]
      (some "run-1") (by decide)).1.mpr
      ⟨(chars "indeed", MainSvc.SiteOutcome.completed 2), by decide, rfl⟩
  · exact (c2_run_success_iff_site_completed
      [(chars "indeed", MainSvc.SiteOutcome.failedSite (chars "bad")),
       (chars "linkedin", MainSvc.SiteOutcome.failedSite (chars "boom"))]
      (some "run-1") (by decide)).2.2 (by decide)

/-- Lowering a code point does not change whether it is whitespace. -/
theorem isSpace_lowerCode (n : Nat) : isSpaceCode (lowerCode n) = isSpaceCode n := by
  unfold lowerCode
  split
  · rename_i h
    unfold isSpaceCode
    rw [decide_eq_decide]
    omega
  · rfl

/-- Mapping `lowerCode` commutes with the empty check. -/
theorem isEmpty_lowerCodes (l : List Nat) : (lowerCodes l).isEmpty = l.isEmpty := by
  cases l <;> rfl

/-- Stripping whitespace commutes with case-folding. -/
theorem strip_lower_comm (l : List Nat) :
    stripCodes (lowerCodes l) = lowerCodes (stripCodes l) := by
  have hp : (isSpaceCode ∘ lowerCode) = isSpaceCode := funext isSpace_lowerCode
  have hdw : ∀ m : List Nat, (m.map lowerCode).dropWhile isSpaceCode
      = (m.dropWhile isSpaceCode).map lowerCode := by
    intro m
    rw [List.dropWhile_map, hp]
  unfold stripCodes lowerCodes
  rw [hdw, ← List.map_reverse, hdw, ← List.map_reverse]

/-- An empty lowered title matches no keyword. -/
theorem keywordMatchOne_empty_title (k : String) :
    EmailSvc.keywordMatchOne [] k = false := by
  show (!(stripCodes (codes k)).isEmpty
    && containsSub [] (lowerCodes (stripCodes (codes k)))) = false
  show (!(stripCodes (codes k)).isEmpty
    && (lowerCodes (stripCodes (codes k))).isEmpty) = false
  rw [isEmpty_lowerCodes]
  cases (stripCodes (codes k)).isEmpty <;> rfl

/-- C6: the keyword filter keeps exactly the jobs whose title matches the
spec's predicate — some non-empty trimmed keyword, case-folded, occurs as
a substring of the case-folded title — preserving the original order (the
result is a sublist of the present job rows); a job without a title is
never kept; matching is unaffected by the case of either the title or the
keyword; and the semantics is substring, not whole-word (`eng` matches
`Engineer`). -/
theorem c6_keyword_filter :
    ∀ (keywords : List String) (jobRows : List (Option EmailSvc.EJob)),
      (EmailSvc.filter_jobs_by_keywords keywords jobRows
        = (jobRows.filterMap id).filter (EmailSvc.specKeywordMatch keywords)) ∧
      List.Sublist (EmailSvc.filter_jobs_by_keywords keywords jobRows)
        (jobRows.filterMap id) ∧
      (∀ j ∈ EmailSvc.filter_jobs_by_keywords keywords jobRows, j.title ≠ none) ∧
      (∀ (t t' k k' : String),
        lowerCodes (codes t) = lowerCodes (codes t') →
        lowerCodes (codes k) = lowerCodes (codes k') →
        EmailSvc.keywordMatchOne (lowerCodes (codes t)) k
          = EmailSvc.keywordMatchOne (lowerCodes (codes t')) k') ∧
      EmailSvc.titleMatches ["eng"] "Engineer" = true := by
  intro keywords jobRows
  have heq : EmailSvc.filter_jobs_by_keywords keywords jobRows
      = (jobRows.filterMap id).filter (EmailSvc.specKeywordMatch keywords) := by
    induction jobRows with
    | nil => rfl
    | cons oj rest ih =>
        cases oj with
        | none =>
            show ((EmailSvc.jobRowKeep keywords none).elim
                (EmailSvc.filter_jobs_by_keywords keywords rest)
                (· :: EmailSvc.filter_jobs_by_keywords keywords rest)) = _
            simp only [EmailSvc.jobRowKeep, Option.elim]
            rw [show (none :: rest).filterMap id = rest.filterMap id from rfl]
            exact ih
        | some j =>
            have hcons :
                EmailSvc.filter_jobs_by_keywords keywords (some j :: rest)
                  = ((EmailSvc.jobRowKeep keywords (some j)).elim
                      (EmailSvc.filter_jobs_by_keywords keywords rest)
                      (· :: EmailSvc.filter_jobs_by_keywords keywords rest)) := by
              unfold EmailSvc.filter_jobs_by_keywords
              rw [List.filterMap_cons]
              cases EmailSvc.jobRowKeep keywords (some j) <;> rfl
            have hmap : (some j :: rest).filterMap id = j :: rest.filterMap id := rfl
            rw [hcons, hmap, List.filter_cons]
            have hkeepShow : EmailSvc.jobRowKeep keywords (some j)
                = (match j.title with
                   | none => none
                   | some t =>
                       if t.isEmpty = true then none
                       else if EmailSvc.titleMatches keywords t = true then some j
                       else none) := rfl
            have hspecShow : EmailSvc.specKeywordMatch keywords j
                = (match j.title with
                   | none => false
                   | some t =>
                       keywords.any (fun k =>
                         let ks := stripCodes (codes k)
                         !ks.isEmpty &&
                           containsSub (lowerCodes (codes t)) (lowerCodes ks))) := rfl
            cases hti : j.title with
            | none =>
                have hkeep : EmailSvc.jobRowKeep keywords (some j) = none := by
                  rw [hkeepShow, hti]
                have hspec : EmailSvc.specKeywordMatch keywords j = false := by
                  rw [hspecShow, hti]
                rw [hkeep, hspec]
                simp only [Option.elim, Bool.false_eq_true, if_false]
                exact ih
            | some t =>
                by_cases hte : t.isEmpty = true
                · have ht : t = "" := (String.isEmpty_iff t).mp hte
                  have hkeep : EmailSvc.jobRowKeep keywords (some j) = none := by
                    rw [hkeepShow, hti]
                    show (if t.isEmpty = true then none
                      else if EmailSvc.titleMatches keywords t = true then some j
                      else none) = none
                    rw [hte]
                    rfl
                  have hspec : EmailSvc.specKeywordMatch keywords j = false := by
                    rw [hspecShow, hti]
                    show keywords.any (fun k =>
                        let ks := stripCodes (codes k)
                        !ks.isEmpty &&
                          containsSub (lowerCodes (codes t)) (lowerCodes ks)) = false
                    rw [ht, List.any_eq_false]
                    intro k _
                    simp only [Bool.not_eq_true]
                    exact keywordMatchOne_empty_title k
                  rw [hkeep, hspec]
                  simp only [Option.elim, Bool.false_eq_true, if_false]
                  exact ih
                · rw [Bool.not_eq_true] at hte
                  have hspec : EmailSvc.specKeywordMatch keywords j
                      = EmailSvc.titleMatches keywords t := by
                    rw [hspecShow, hti]
                    rfl
                  have hkeep : EmailSvc.jobRowKeep keywords (some j)
                      = (if EmailSvc.titleMatches keywords t then some j else none) := by
                    rw [hkeepShow, hti]
                    show (if t.isEmpty = true then none
                      else if EmailSvc.titleMatches keywords t = true then some j
                      else none) = _
                    rw [hte]
                    rfl
                  rw [hkeep, hspec]
                  cases hm : EmailSvc.titleMatches keywords t with
                  | true =>
                      simp only [Option.elim, if_true]
                      rw [ih]
                  | false =>
                      simp only [Option.elim, Bool.false_eq_true, if_false]
                      exact ih
  refine ⟨heq, ?_, ?_, ?_, by decide⟩
  · rw [heq]
    exact List.filter_sublist _
  · intro j hj
    rw [heq, List.mem_filter] at hj
    intro hnone
    have hfalse : EmailSvc.specKeywordMatch keywords j = false := by
      unfold EmailSvc.specKeywordMatch
      rw [hnone]
    rw [hj.2] at hfalse
    exact absurd hfalse (by decide)
  · intro t t' k k' ht hk
    unfold EmailSvc.keywordMatchOne
    rw [ht]
    have hks : lowerCodes (stripCodes (codes k)) = lowerCodes (stripCodes (codes k')) := by
      rw [← strip_lower_comm, ← strip_lower_comm, hk]
    have hke : (stripCodes (codes k)).isEmpty = (stripCodes (codes k')).isEmpty := by
      rw [← isEmpty_lowerCodes, ← isEmpty_lowerCodes (stripCodes (codes k')), hks]
    show (!(stripCodes (codes k)).isEmpty
        && containsSub (lowerCodes (codes t')) (lowerCodes (stripCodes (codes k))))
      = (!(stripCodes (codes k')).isEmpty
        && containsSub (lowerCodes (codes t')) (lowerCodes (stripCodes (codes k'))))
    rw [hks, hke]

/-- Witness for C6 (case-insensitivity of matching at concrete strings;
the discharged hypotheses identify the case-folded forms). -/
theorem c6_keyword_filter_witness :
    EmailSvc.keywordMatchOne (lowerCodes (codes "ENGINEER")) "Eng"
      = EmailSvc.keywordMatchOne (lowerCodes (codes "engineer")) "eNG" :=
  (c6_keyword_filter [] []).2.2.2.1 "ENGINEER" "engineer" "Eng" "eNG"
    (by decide) (by decide)

end STF
